import Mathlib

/-!
Verification development for the search-query generator (`main.py`).

The embedding models the predicate algebra (`BasePredicate` and its
subclasses), the composite formatting logic (`MultiAndPredicate.format` /
`formatBinOp` with its class-based double dispatch), and the live pattern
resolution loop `_readLevel`, shallowly in Lean.

Modelling conventions:
* Python strings are `String`; a predicate's `value` is its string payload.
* Python exceptions become explicit `Except` error values.  The error
  constructors record the raise sites of the source: `ValueError(op)` from
  `TagPredicate.formatBinOp`, `IndexError` from `[...][0]` on an empty list,
  `AttributeError` from dispatching `formatBinOp` on `BasePredicate` (which
  does not define it), and Python's `RecursionError` for the one genuinely
  divergent dispatch chain (see `dispatchCls` below).
* `PredicateContainer` may in principle also hold raw strings which
  `all_predicates` wraps with `default_constructor`; the resolution path
  under study only ever stores predicate values, so container children are
  modelled as `List Pred` while the `default_constructor` field (`dc`) is
  kept on the container as in the source.
* Python `random.choice(lst)` is modelled by an explicit oracle: a stream of
  natural numbers (`List Nat`, 0 when exhausted); `choice lst k = lst[k % len]`.
  Claims about randomized behaviour are stated for every oracle value (or a
  concrete one, for counterexamples); the uniformity of the distribution
  itself is a property of Python's `random` module, outside the embedding.
* Python `Narrower` objects compare by object identity (no `__eq__`); each
  `Narrower(...)` construction is a fresh object.  The model gives each
  narrower an `id : Nat` standing for its object identity, and the
  selected-set is a list of such ids.
-/

namespace SearchGen

/-- The `default_constructor` passed to containers: `TagPredicate` for the
generic backend (`PredicateBag`), `TagPredicateAO3` for the AO3 backend. -/
inductive DC where
  | dtag
  | dao3
deriving DecidableEq, Repr

/-- The predicate class hierarchy of `main.py`:
`BasePredicate`, `TagPredicate`, `TagPredicateAO3`, `NotPredicateAO3`,
`KVPredicateAO3` (value, key), `SitePredicate`, and the containers
`MultiAndPredicate` / `MultiOrPredicate` (children plus the stored
`default_constructor`). -/
inductive Pred where
  | base (value : String)
  | tag (value : String)
  | tagAO3 (value : String)
  | notAO3 (value : String)
  | kvAO3 (value : String) (key : String)
  | site (value : String)
  | multiAnd (children : List Pred) (dc : DC)
  | multiOr (children : List Pred) (dc : DC)
deriving Repr

/-- Which `formatBinOp` implementation a value's Python class resolves to:
`TagPredicate.formatBinOp` (also inherited by `SitePredicate`),
`TagPredicateAO3.formatBinOp` (also `NotPredicateAO3`, `KVPredicateAO3`),
`MultiAndPredicate.formatBinOp` (also `MultiOrPredicate`), and none at all
for `BasePredicate` (an `AttributeError` at dispatch time). -/
inductive Cls where
  | clsBase
  | clsTag
  | clsAO3
  | clsMulti
deriving DecidableEq, Repr

def classOf : Pred → Cls
  | .base _ => .clsBase
  | .tag _ => .clsTag
  | .site _ => .clsTag
  | .tagAO3 _ => .clsAO3
  | .notAO3 _ => .clsAO3
  | .kvAO3 _ _ => .clsAO3
  | .multiAnd _ _ => .clsMulti
  | .multiOr _ _ => .clsMulti

/-- `all_predicates`: a leaf yields itself, a container yields its children
(`default_constructor` applied to raw-string children, which do not occur in
the modelled paths). -/
def expandOf : Pred → List Pred
  | .multiAnd ch _ => ch
  | .multiOr ch _ => ch
  | p => [p]

/-- The Python exceptions the formatting code can raise. -/
inductive Err where
  | valueError (op : String)
  | indexError
  | attributeError
  | recursionError
deriving DecidableEq, Repr

/-- Python's `sep.join(strings)`. -/
def joinStr (sep : String) : List String → String
  | [] => ""
  | [s] => s
  | s :: rest => s ++ sep ++ joinStr sep rest

/-- Resolution of `fallthrough.__class__.formatBinOp` for the first element
`t0` of a multi-child group (`MultiAndPredicate.format`, line 106, and the
further dispatch inside `MultiAndPredicate.formatBinOp`, lines 112-119).

If `t0` is a leaf, its own class is used.  If `t0` is a container,
`MultiAndPredicate.formatBinOp(t0, taglist, op)` takes
`fallthrough = [*t0.all_predicates()][0]` (an `IndexError` when `t0` has no
children) and dispatches `fallthrough.__class__.formatBinOp(t0, taglist, op)`.
When that first child is itself a container the dispatched method is again
`MultiAndPredicate.formatBinOp` with *identical* arguments, so the source
recurses forever and dies with `RecursionError`; the model returns that
outcome directly. -/
def dispatchCls (t0 : Pred) : Except Err Cls :=
  match classOf t0 with
  | .clsMulti =>
    match expandOf t0 with
    | [] => .error .indexError
    | f :: _ =>
      match classOf f with
      | .clsMulti => .error .recursionError
      | c => .ok c
  | c => .ok c

mutual

/-- `format` of each predicate class:
`BasePredicate.format` = `str(value)`; `TagPredicateAO3.format` =
`key:"value"` with class attribute `key = 'tag'`; `NotPredicateAO3.format`
prepends `NOT `; `KVPredicateAO3` uses its instance key; `SitePredicate`
prepends `SITE:`; containers use `MultiAndPredicate.format` with their own
`op` class attribute (`AND` / `OR`). -/
def format : Pred → Except Err String
  | .base v => .ok v
  | .tag v => .ok v
  | .tagAO3 v => .ok ("tag:\"" ++ v ++ "\"")
  | .notAO3 v => .ok ("NOT tag:\"" ++ v ++ "\"")
  | .kvAO3 v k => .ok (k ++ ":\"" ++ v ++ "\"")
  | .site v => .ok ("SITE:" ++ v)
  | .multiAnd ch _ => fmtMulti ch "AND"
  | .multiOr ch _ => fmtMulti ch "OR"

/-- `MultiAndPredicate.format` (lines 99-110) on the expanded `taglist`:
an empty group raises `IndexError` (`[*self.all_predicates()][0]`), a
single-child group returns `taglist[0].format()`, and a multi-child group
dispatches `fallthrough.__class__.formatBinOp(first, tail, op)` where
`fallthrough = first = taglist[0]` — `TagPredicate.formatBinOp` space-joins
(only for `op == "AND"`, otherwise `ValueError(op)`),
`TagPredicateAO3.formatBinOp` joins with the literal operator inside
parentheses, and a container first child resolves through `dispatchCls`. -/
def fmtMulti : List Pred → String → Except Err String
  | [], _ => .error .indexError
  | t0 :: tl, op =>
    match tl with
    | [] => format t0
    | _ :: _ =>
      match dispatchCls t0 with
      | .error e => .error e
      | .ok .clsMulti => .error .recursionError
      | .ok .clsBase => .error .attributeError
      | .ok .clsTag =>
          if op = "AND" then
            do
              let s ← format t0
              let ss ← fmtList tl
              .ok (joinStr " " (s :: ss))
          else .error (.valueError op)
      | .ok .clsAO3 =>
          do
            let s ← format t0
            let ss ← fmtList tl
            .ok ("(" ++ joinStr (" " ++ op ++ " ") (s :: ss) ++ ")")

/-- Formats each predicate of a list in order, propagating the first
exception — the generator expression `(p.format() for p in [self, *taglist])`
consumed by `join`. -/
def fmtList : List Pred → Except Err (List String)
  | [] => .ok []
  | p :: ps =>
      do
        let s ← format p
        let ss ← fmtList ps
        .ok (s :: ss)

end

/-- A `Narrower`: `name`, ordered `predicate_opts`, plus `id` standing for
Python object identity (each constructed `Narrower` is a distinct object and
the `selected_narrowers` set compares by identity). -/
structure Nrw where
  id : Nat
  name : String
  predicate_opts : List Pred
deriving Repr

/-- `input_categories`: the mapping from category name to its narrowers,
looked up by `input_categories[child]` (a `KeyError` when absent). -/
abbrev Registry : Type := List (String × List Nrw)

def lookupCat (reg : Registry) (c : String) : Option (List Nrw) :=
  match reg with
  | [] => none
  | (k, v) :: rest => if k = c then some v else lookupCat rest c

/-- Errors that abort one `_readLevel` resolution, named as the raise sites
of the source: `KeyError` for an unknown category, `IndexError` from
`random.choice([])` when every narrower of the category is already selected,
`NotImplementedError(op)` for an operator other than AND/OR, and `uncaught`
for a formatting exception other than `ValueError` escaping the
`try/except ValueError` block (lines 320-328). -/
inductive RErr where
  | unknownCategory (c : String)
  | exhaustedCategory (c : String)
  | unsupportedOperator (op : String)
  | uncaught (e : Err)
deriving DecidableEq, Repr

/-- State threaded through one `_readLevel` call tree.

`selected` is the source's `selected_narrowers` set (narrower ids; the
initial Python set also holds `None`, which never equals a narrower and is
dropped).  `rand` is the oracle for `random.choice`.  `visits` and `picks`
are ghost instrumentation recording, in order, the id of every narrower
returned by `random.choice` at line 313 (`visits`) and of every narrower
that actually contributed a child to the output tree (`picks`); they
influence nothing and exist only to state the sampling claims. -/
structure RState where
  selected : List Nat
  rand : List Nat
  visits : List Nat
  picks : List Nat
deriving Repr

/-- Draw the next oracle value (0 once the stream is exhausted). -/
def nextRand : List Nat → Nat × List Nat
  | [] => (0, [])
  | k :: r => (k, r)

/-- A pattern tree: a dict node `{op: children}` or a category-name leaf.
(A Python dict with several items behaves as the corresponding consecutive
`node` children; a child of any other type raises `NotImplementedError` and
is outside the model.) -/
inductive Pattern where
  | leaf (category : String)
  | node (op : String) (children : List Pattern)
deriving Repr

/-- End of `_readLevel` (lines 331-336): combine the collected children under
the node's operator, `NotImplementedError(op)` otherwise. -/
def combineLevel (dc : DC) (op : String) (items : List Pred) : Except RErr Pred :=
  if op = "AND" then .ok (.multiAnd items dc)
  else if op = "OR" then .ok (.multiOr items dc)
  else .error (.unsupportedOperator op)

mutual

/-- The body of the `for child in children` loop of `_readLevel`
(lines 305-330), threading `selected_narrowers` / the oracle and collecting
`child_items`. -/
def readChildren (reg : Registry) (dc : DC) : List Pattern → RState → Except RErr (List Pred × RState)
  | [], st => .ok ([], st)
  | c :: rest, st =>
    match readChild reg dc c st with
    | .error e => .error e
    | .ok (items₁, st₁) =>
      match readChildren reg dc rest st₁ with
      | .error e => .error e
      | .ok (items₂, st₂) => .ok (items₁ ++ items₂, st₂)

/-- One child of a `_readLevel` node.  A dict child recurses (lines 307-309).
A string child (lines 310-328) samples a not-yet-selected narrower of the
category — `random.choice([*set(input_categories[child]) - selected_narrowers])`,
`KeyError` if the category is unknown, `IndexError` if nothing remains — and,
when the narrower has any options, marks it selected, builds
`MultiOrPredicate(predicate_opts, default_predicate)` and verifies that it
formats; on a `ValueError` it falls back to a single random option
(`except ValueError: child_items.append(random.choice(predicate_opts))`).
A narrower without options contributes nothing and is not marked selected.
The `print` progress line for non-silent narrower names is I/O and is not
modelled. -/
def readChild (reg : Registry) (dc : DC) : Pattern → RState → Except RErr (List Pred × RState)
  | .node op ch, st =>
    match readChildren reg dc ch st with
    | .error e => .error e
    | .ok (items, st') =>
      match combineLevel dc op items with
      | .error e => .error e
      | .ok p => .ok ([p], st')
  | .leaf c, st =>
    match lookupCat reg c with
    | none => .error (.unknownCategory c)
    | some cat =>
      let avail := cat.filter (fun n => !(st.selected.contains n.id))
      match avail with
      | [] => .error (.exhaustedCategory c)
      | n0 :: _ =>
        let (k, rand₁) := nextRand st.rand
        let nrw := avail.getD (k % avail.length) n0
        let st₁ : RState :=
          { st with rand := rand₁, visits := st.visits ++ [nrw.id] }
        let opts := nrw.predicate_opts
        if opts.length > 0 then
          let st₂ : RState := { st₁ with selected := st₁.selected ++ [nrw.id] }
          match format (Pred.multiOr opts dc) with
          | .ok _ =>
              .ok ([Pred.multiOr opts dc],
                   { st₂ with picks := st₂.picks ++ [nrw.id] })
          | .error (.valueError _) =>
              let (k₂, rand₂) := nextRand st₂.rand
              let p := opts.getD (k₂ % opts.length) (.base "")
              .ok ([p], { st₂ with rand := rand₂, picks := st₂.picks ++ [nrw.id] })
          | .error e => .error (.uncaught e)
        else
          .ok ([], st₁)

end

/-- `_readLevel(op, children)` itself. -/
def readLevel (reg : Registry) (dc : DC) (op : String) (children : List Pattern)
    (st : RState) : Except RErr (Pred × RState) :=
  match readChildren reg dc children st with
  | .error e => .error e
  | .ok (items, st') =>
    match combineLevel dc op items with
    | .error e => .error e
    | .ok p => .ok (p, st')

/-- One full resolution: `_readLevel(k, v)` started with a fresh
`selected_narrowers` (line 300) and the given oracle. -/
def resolve (reg : Registry) (dc : DC) (op : String) (children : List Pattern)
    (rand : List Nat) : Except RErr (Pred × RState) :=
  readLevel reg dc op children { selected := [], rand := rand, visits := [], picks := [] }

end SearchGen

/-! ## Helper lemmas about formatting -/

namespace SearchGen

theorem fmtList_map_tag (vs : List String) : fmtList (vs.map Pred.tag) = .ok vs := by
  induction vs with
  | nil => rfl
  | cons v vs ih => simp [fmtList, format, ih, Bind.bind, Except.bind]

/-- `TagPredicate.formatBinOp` for `op == "AND"`: when dispatch resolves to
the plain-tag implementation, a multi-child AND group space-joins the
formatted first child and tail, with no parentheses. -/
theorem fmtMulti_clsTag_and (t0 t1 : Pred) (rest : List Pred)
    (hdisp : dispatchCls t0 = .ok .clsTag) (s : String) (ss : List String)
    (hs : format t0 = .ok s) (hss : fmtList (t1 :: rest) = .ok ss) :
    fmtMulti (t0 :: t1 :: rest) "AND" = .ok (joinStr " " (s :: ss)) := by
  simp [fmtMulti, hdisp, hs, hss, Bind.bind, Except.bind]

/-- `TagPredicate.formatBinOp` for any other operator: `ValueError(op)`
(line 46), raised before any child is formatted. -/
theorem fmtMulti_clsTag_not_and (t0 t1 : Pred) (rest : List Pred) (op : String)
    (hdisp : dispatchCls t0 = .ok .clsTag) (hop : op ≠ "AND") :
    fmtMulti (t0 :: t1 :: rest) op = .error (.valueError op) := by
  simp [fmtMulti, hdisp, hop]

/-- `TagPredicateAO3.formatBinOp`: when dispatch resolves to the AO3
implementation, a multi-child group joins the formatted children with the
literal operator and wraps the result in parentheses, for any operator. -/
theorem fmtMulti_clsAO3_join (t0 t1 : Pred) (rest : List Pred) (op : String)
    (hdisp : dispatchCls t0 = .ok .clsAO3) (s : String) (ss : List String)
    (hs : format t0 = .ok s) (hss : fmtList (t1 :: rest) = .ok ss) :
    fmtMulti (t0 :: t1 :: rest) op
      = .ok ("(" ++ joinStr (" " ++ op ++ " ") (s :: ss) ++ ")") := by
  simp [fmtMulti, hdisp, hs, hss, Bind.bind, Except.bind]

end SearchGen

/-! ## Claims -/

namespace SearchGen

/-- C7: a composite group with exactly one child formats identically to that
child alone, for AND groups and OR groups alike and for every predicate
child, leaf or composite: `MultiAndPredicate.format` returns
`taglist[0].format()` when `len(taglist) == 1`. -/
theorem claim_C7_single_child_law (x : Pred) (dc : DC) :
    format (.multiAnd [x] dc) = format x ∧ format (.multiOr [x] dc) = format x := by
  constructor <;> simp [format, fmtMulti]

/-- C6: under the AO3 variants, every multi-child group
whose first child is a keyed-tag leaf (`KVPredicateAO3`, or the default-key
`TagPredicateAO3`) formats as the children's formatted strings joined by
the literal operator keyword and wrapped in parentheses; in particular
`OrGroup([KeyedTag("tag","a"), KeyedTag("tag","b")]).format()` is
`(tag:"a" OR tag:"b")`. -/
theorem claim_C6_target_backend_shape :
    (∀ (v k : String) (tl : List Pred) (dc : DC) (ss : List String),
       tl ≠ [] → fmtList tl = .ok ss →
       format (.multiOr (.kvAO3 v k :: tl) dc)
         = .ok ("(" ++ joinStr " OR " ((k ++ ":\"" ++ v ++ "\"") :: ss) ++ ")") ∧
       format (.multiAnd (.kvAO3 v k :: tl) dc)
         = .ok ("(" ++ joinStr " AND " ((k ++ ":\"" ++ v ++ "\"") :: ss) ++ ")")) ∧
    (∀ (v : String) (tl : List Pred) (dc : DC) (ss : List String),
       tl ≠ [] → fmtList tl = .ok ss →
       format (.multiOr (.tagAO3 v :: tl) dc)
         = .ok ("(" ++ joinStr " OR " (("tag:\"" ++ v ++ "\"") :: ss) ++ ")")) ∧
    format (.multiOr [.kvAO3 "a" "tag", .kvAO3 "b" "tag"] .dao3)
      = .ok "(tag:\"a\" OR tag:\"b\")" ∧
    format (.multiAnd [.kvAO3 "a" "tag", .kvAO3 "b" "tag"] .dao3)
      = .ok "(tag:\"a\" AND tag:\"b\")" := by
  refine ⟨?_, ?_, rfl, rfl⟩
  · intro v k tl dc ss hne hss
    match tl, hne with
    | t1 :: rest, _ =>
      constructor
      · simpa [format] using
          fmtMulti_clsAO3_join (.kvAO3 v k) t1 rest "OR" rfl _ ss rfl hss
      · simpa [format] using
          fmtMulti_clsAO3_join (.kvAO3 v k) t1 rest "AND" rfl _ ss rfl hss
  · intro v tl dc ss hne hss
    match tl, hne with
    | t1 :: rest, _ =>
      simpa [format] using
        fmtMulti_clsAO3_join (.tagAO3 v) t1 rest "OR" rfl _ ss rfl hss

/-- C6 witness: a keyed-tag-first group with an explicit key and a negated
second child joins with the operator inside parentheses. -/
theorem claim_C6_target_backend_witness :
    format (.multiOr [.kvAO3 "x" "key", .notAO3 "y"] .dao3)
      = .ok "(key:\"x\" OR NOT tag:\"y\")" := by
  have h := claim_C6_target_backend_shape.1 "x" "key" [.notAO3 "y"] .dao3 ["NOT tag:\"y\""]
    (by simp) rfl
  exact h.1

/-- C5 counterexample: the claim says a multi-child group whose formatting
falls to the `PlainTag` variant space-joins for OR groups as well as AND
groups; in fact `TagPredicate.formatBinOp` raises `ValueError(op)` for any
operator other than `"AND"`, so an OR group of two plain tags fails to
format instead of producing `"a b"`. -/
theorem claim_C5_counterexample :
    format (.multiOr [.tag "a", .tag "b"] .dtag) = .error (.valueError "OR") :=
  rfl

/-- C5 amended: for every multi-child group whose
`formatBinOp` dispatch resolves to the `PlainTag` implementation (a
plain-tag or site first child, or a container whose first expanded child is
one), an AND group space-joins the children's formatted strings with no
parentheses, while an OR group raises `ValueError("OR")`. -/
theorem claim_C5_plain_tag_join (t0 : Pred) (tl : List Pred) (dc : DC)
    (hne : tl ≠ []) (hdisp : dispatchCls t0 = .ok .clsTag) :
    (∀ (s : String) (ss : List String),
       format t0 = .ok s → fmtList tl = .ok ss →
       format (.multiAnd (t0 :: tl) dc) = .ok (joinStr " " (s :: ss))) ∧
    format (.multiOr (t0 :: tl) dc) = .error (.valueError "OR") := by
  match tl, hne with
  | t1 :: rest, _ =>
    constructor
    · intro s ss hs hss
      simpa [format] using fmtMulti_clsTag_and t0 t1 rest hdisp s ss hs hss
    · simpa [format] using fmtMulti_clsTag_not_and t0 t1 rest "OR" hdisp (by decide)

/-- C5 witness: a heterogeneous group whose first child is itself a
single-plain-tag container (dispatch still resolves to `PlainTag`) with a
site-filter second child: the AND group space-joins, the OR group raises. -/
theorem claim_C5_plain_tag_witness :
    format (.multiAnd [.multiOr [.tag "a"] .dtag, .site "b"] .dtag) = .ok "a SITE:b" ∧
    format (.multiOr [.multiOr [.tag "a"] .dtag, .site "b"] .dtag)
      = .error (.valueError "OR") := by
  have h := claim_C5_plain_tag_join (.multiOr [.tag "a"] .dtag) [.site "b"] .dtag
    (by simp) rfl
  exact ⟨h.1 "a" ["SITE:b"] rfl rfl, h.2⟩

/-- C8 counterexample: the claim says duplicate leaves are collapsed before
joining, so a composite with two equal plain-tag leaves would format like
the composite with one of them removed; in fact `MultiAndPredicate.format`
performs no de-duplication: the pair formats as `"x x"` while the singleton
formats as `"x"`. -/
theorem claim_C8_counterexample :
    format (.multiAnd [.tag "x", .tag "x"] .dtag) = .ok "x x" ∧
    format (.multiAnd [.tag "x"] .dtag) = .ok "x" ∧
    ("x x" : String) ≠ "x" :=
  ⟨rfl, rfl, by decide⟩

/-- C8 amended: generic-backend AND groups keep every
child in its original position — nothing is de-duplicated (arbitrary, also
equal, tag values all appear) and nothing is reordered by variant kind (a
site-filter leaf between two plain tags stays between them). -/
theorem claim_C8_no_dedup (v0 v1 : String) (vs : List String) (w : String) (dc : DC) :
    format (.multiAnd (.tag v0 :: .tag v1 :: vs.map Pred.tag) dc)
      = .ok (joinStr " " (v0 :: v1 :: vs)) ∧
    format (.multiAnd [.tag v0, .site w, .tag v1] dc)
      = .ok (joinStr " " [v0, "SITE:" ++ w, v1]) := by
  constructor
  · have hss : fmtList (.tag v1 :: vs.map Pred.tag) = .ok (v1 :: vs) :=
      fmtList_map_tag (v1 :: vs)
    simpa [format] using fmtMulti_clsTag_and (.tag v0) (.tag v1) (vs.map Pred.tag)
      rfl v0 (v1 :: vs) rfl hss
  · have hss : fmtList [.site w, .tag v1] = .ok ["SITE:" ++ w, v1] := by
      simp [fmtList, format, Bind.bind, Except.bind]
    simpa [format] using fmtMulti_clsTag_and (.tag v0) (.site w) [.tag v1]
      rfl v0 ["SITE:" ++ w, v1] rfl hss

/-- C9 counterexample: the claim says a leaf predicate's `format()` raises
`InvalidPredicateError` exactly when `value` is empty; in fact no such check
(or error kind) exists anywhere in the source — formatting an empty-valued
`BasePredicate` or `TagPredicateAO3` succeeds. -/
theorem claim_C9_counterexample :
    format (.base "") = .ok "" ∧ format (.tagAO3 "") = .ok "tag:\"\"" :=
  ⟨rfl, rfl⟩

/-- C9 amended: leaf-predicate `format()` never fails — for every value,
empty included, it succeeds and is a pure function of the variant's fields
(`str(value)`, `key:"value"`, `NOT key:"value"`, `SITE:value`). -/
theorem claim_C9_leaf_format_total (v k : String) :
    format (.base v) = .ok v ∧
    format (.tag v) = .ok v ∧
    format (.tagAO3 v) = .ok ("tag:\"" ++ v ++ "\"") ∧
    format (.notAO3 v) = .ok ("NOT tag:\"" ++ v ++ "\"") ∧
    format (.kvAO3 v k) = .ok (k ++ ":\"" ++ v ++ "\"") ∧
    format (.site v) = .ok ("SITE:" ++ v) :=
  ⟨rfl, rfl, rfl, rfl, rfl, rfl⟩

end SearchGen

namespace SearchGen

/-! ## Sampling-without-replacement invariant (C2) -/

/-- `wfOpts reg`: every narrower of the registry has at least one predicate
option (the configuration contract of the spec's §6). -/
def wfOpts (reg : Registry) : Bool :=
  reg.all (fun p => p.2.all (fun n => !n.predicate_opts.isEmpty))

theorem lookupCat_mem {reg : Registry} {c : String} {cat : List Nrw}
    (h : lookupCat reg c = some cat) : (c, cat) ∈ reg := by
  induction reg with
  | nil => simp [lookupCat] at h
  | cons p rest ih =>
    rcases p with ⟨k, v⟩
    simp only [lookupCat] at h
    split at h
    · rename_i hk
      cases h
      subst hk
      exact List.mem_cons_self _ _
    · exact List.mem_cons_of_mem _ (ih h)

theorem getD_mod_mem {α : Type} (l : List α) (k : Nat) (d : α) (h : l ≠ []) :
    l.getD (k % l.length) d ∈ l := by
  have hlt : k % l.length < l.length := Nat.mod_lt _ (List.length_pos.mpr h)
  rw [List.getD_eq_getElem l d hlt]
  exact List.getElem_mem hlt

/-- The per-call selection invariant: one resolution step extends the
selection state by a list `d` of fresh narrower ids, the same list being
appended to `selected_narrowers`, to the visit log and to the contribution
log, with no id repeated and none previously selected. -/
def StOk (st st' : RState) : Prop :=
  ∃ d : List Nat,
    st'.selected = st.selected ++ d ∧
    st'.visits = st.visits ++ d ∧
    st'.picks = st.picks ++ d ∧
    d.Nodup ∧ ∀ i ∈ d, i ∉ st.selected

theorem StOk_refl (st : RState) : StOk st st :=
  ⟨[], by simp, by simp, by simp, List.nodup_nil, by simp⟩

theorem StOk_trans {st st₁ st₂ : RState} (h₁ : StOk st st₁) (h₂ : StOk st₁ st₂) :
    StOk st st₂ := by
  obtain ⟨d₁, hs₁, hv₁, hp₁, hn₁, hf₁⟩ := h₁
  obtain ⟨d₂, hs₂, hv₂, hp₂, hn₂, hf₂⟩ := h₂
  refine ⟨d₁ ++ d₂, by simp [hs₂, hs₁], by simp [hv₂, hv₁], by simp [hp₂, hp₁], ?_, ?_⟩
  · rw [List.nodup_append]
    refine ⟨hn₁, hn₂, fun i hi₁ hi₂ => ?_⟩
    exact hf₂ i hi₂ (by simp [hs₁, hi₁])
  · intro i hi
    rcases List.mem_append.mp hi with hi | hi
    · exact hf₁ i hi
    · intro hmem
      exact hf₂ i hi (by simp [hs₁, hmem])

/-- One string-child step of `_readLevel` under a well-formed registry
preserves the selection invariant: the sampled narrower is fresh (it came
from `set(category) - selected_narrowers`) and is recorded in the selected
set, the visit log and the contribution log alike. -/
theorem readChild_leaf_StOk {reg : Registry} {dc : DC}
    (hwf : wfOpts reg = true) (c : String) (st : RState)
    {items : List Pred} {st' : RState}
    (h : readChild reg dc (.leaf c) st = .ok (items, st')) : StOk st st' := by
  unfold readChild at h
  cases hl : lookupCat reg c with
  | none => rw [hl] at h; cases h
  | some cat =>
    rw [hl] at h
    dsimp only at h
    cases havail : cat.filter (fun n => !(st.selected.contains n.id)) with
    | nil => rw [havail] at h; cases h
    | cons n0 tail =>
      rw [havail] at h
      rcases hnr : nextRand st.rand with ⟨k, r⟩
      rw [hnr] at h
      dsimp only at h
      set nrw := (n0 :: tail).getD (k % (n0 :: tail).length) n0 with hnrw
      have hmem : nrw ∈ n0 :: tail := getD_mod_mem _ _ n0 (by simp)
      have hmemf : nrw ∈ cat.filter (fun n => !(st.selected.contains n.id)) := by
        rw [havail]; exact hmem
      have hcat : nrw ∈ cat := (List.mem_filter.mp hmemf).1
      have hfresh : nrw.id ∉ st.selected := by
        have := (List.mem_filter.mp hmemf).2
        simpa using this
      have hopts : nrw.predicate_opts.length > 0 := by
        have hall := List.all_eq_true.mp hwf _ (lookupCat_mem hl)
        have := List.all_eq_true.mp hall _ hcat
        simp only [Bool.not_eq_true'] at this
        simpa [List.isEmpty_iff_length_eq_zero, Nat.pos_iff_ne_zero] using this
      rw [if_pos hopts] at h
      cases hfmt : format (Pred.multiOr nrw.predicate_opts dc) with
      | ok s =>
        rw [hfmt] at h
        cases h
        exact ⟨[nrw.id], rfl, rfl, rfl, List.nodup_singleton _, by simpa using hfresh⟩
      | error e =>
        rw [hfmt] at h
        cases e with
        | valueError op =>
          rcases hnr₂ : nextRand r with ⟨k₂, r₂⟩
          rw [hnr₂] at h
          cases h
          exact ⟨[nrw.id], rfl, rfl, rfl, List.nodup_singleton _, by simpa using hfresh⟩
        | indexError => cases h
        | attributeError => cases h
        | recursionError => cases h

end SearchGen

namespace SearchGen

/-- The selection invariant holds across any successful `_readLevel` child,
by mutual induction over the pattern tree. -/
theorem readChild_StOk (reg : Registry) (dc : DC) (hwf : wfOpts reg = true) :
    ∀ (c : Pattern), ∀ (st : RState) (items : List Pred) (st' : RState),
      readChild reg dc c st = .ok (items, st') → StOk st st' := by
  intro c
  refine @Pattern.rec
    (fun c => ∀ st items st', readChild reg dc c st = .ok (items, st') → StOk st st')
    (fun l => ∀ st items st', readChildren reg dc l st = .ok (items, st') → StOk st st')
    ?_ ?_ ?_ ?_ c
  · intro cat st items st' h
    exact readChild_leaf_StOk hwf cat st h
  · intro op ch ih st items st' h
    unfold readChild at h
    cases hc : readChildren reg dc ch st with
    | error e => rw [hc] at h; cases h
    | ok r =>
      rcases r with ⟨items₂, st₂⟩
      rw [hc] at h
      dsimp only at h
      cases hcl : combineLevel dc op items₂ with
      | error e => rw [hcl] at h; cases h
      | ok p =>
        rw [hcl] at h
        cases h
        exact ih _ _ _ hc
  · intro st items st' h
    unfold readChildren at h
    cases h
    exact StOk_refl st
  · intro hd tail ih₁ ih₂ st items st' h
    unfold readChildren at h
    cases hc : readChild reg dc hd st with
    | error e => rw [hc] at h; cases h
    | ok r =>
      rcases r with ⟨items₁, st₁⟩
      rw [hc] at h
      dsimp only at h
      cases hrest : readChildren reg dc tail st₁ with
      | error e => rw [hrest] at h; cases h
      | ok r₂ =>
        rcases r₂ with ⟨items₂, st₂⟩
        rw [hrest] at h
        cases h
        exact StOk_trans (ih₁ _ _ _ hc) (ih₂ _ _ _ hrest)

/-- The selection invariant for the whole child list of a `_readLevel` node. -/
theorem readChildren_StOk (reg : Registry) (dc : DC) (hwf : wfOpts reg = true) :
    ∀ (l : List Pattern) (st : RState) (items : List Pred) (st' : RState),
      readChildren reg dc l st = .ok (items, st') → StOk st st' := by
  intro l
  induction l with
  | nil =>
    intro st items st' h
    unfold readChildren at h
    cases h
    exact StOk_refl st
  | cons hd tail ih =>
    intro st items st' h
    unfold readChildren at h
    cases hc : readChild reg dc hd st with
    | error e => rw [hc] at h; cases h
    | ok r =>
      rcases r with ⟨items₁, st₁⟩
      rw [hc] at h
      dsimp only at h
      cases hrest : readChildren reg dc tail st₁ with
      | error e => rw [hrest] at h; cases h
      | ok r₂ =>
        rcases r₂ with ⟨items₂, st₂⟩
        rw [hrest] at h
        cases h
        exact StOk_trans (readChild_StOk reg dc hwf hd _ _ _ hc) (ih _ _ _ hrest)

/-- C2: sampling without replacement.  For any one `resolve` call over a
registry whose narrowers all have options, every narrower `random.choice`
returns is distinct (`visits.Nodup`), each is added to `selected_narrowers`
the moment it is sampled and stays there (`selected = visits`), so no later
sample in the same call can return it again, and the narrowers contributing
leaves to the result tree are exactly those (`picks = visits`): no two
leaves of the returned tree come from the same narrower. -/
theorem claim_C2_sampling_without_replacement
    (reg : Registry) (dc : DC) (op : String) (children : List Pattern)
    (rand : List Nat) (p : Pred) (st' : RState)
    (hwf : wfOpts reg = true)
    (h : resolve reg dc op children rand = .ok (p, st')) :
    st'.visits.Nodup ∧ st'.selected = st'.visits ∧ st'.picks = st'.visits := by
  unfold resolve readLevel at h
  cases hc : readChildren reg dc children { selected := [], rand := rand, visits := [], picks := [] } with
  | error e => rw [hc] at h; cases h
  | ok r =>
    rcases r with ⟨items, st₀⟩
    rw [hc] at h
    dsimp only at h
    cases hcl : combineLevel dc op items with
    | error e => rw [hcl] at h; cases h
    | ok q =>
      rw [hcl] at h
      cases h
      obtain ⟨d, hs, hv, hp, hn, _⟩ := readChildren_StOk reg dc hwf children _ _ _ hc
      simp only [List.nil_append] at hs hv hp
      exact ⟨hv ▸ hn, by rw [hs, hv], by rw [hp, hv]⟩

/-- Registry of two categories with one AO3-variant narrower each. -/
def regAO3 : Registry :=
  [("c1", [⟨0, "n1", [.tagAO3 "a"]⟩]), ("c2", [⟨1, "n2", [.tagAO3 "b"]⟩])]

/-- Witness for C2 at a concrete input: resolving `AND("c1","c2")` over
`regAO3` succeeds with visit log `[0, 1]`, which is duplicate-free and
equals the final selection state and contribution log. -/
theorem claim_C2_sampling_witness :
    ([0, 1] : List Nat).Nodup ∧
    ({ selected := [0, 1], rand := [], visits := [0, 1], picks := [0, 1] } : RState).selected
      = [0, 1] ∧
    ({ selected := [0, 1], rand := [], visits := [0, 1], picks := [0, 1] } : RState).picks
      = [0, 1] :=
  claim_C2_sampling_without_replacement regAO3 .dao3 "AND" [.leaf "c1", .leaf "c2"] []
    (.multiAnd [.multiOr [.tagAO3 "a"] .dao3, .multiOr [.tagAO3 "b"] .dao3] .dao3)
    { selected := [0, 1], rand := [], visits := [0, 1], picks := [0, 1] }
    (by decide) rfl

end SearchGen

namespace SearchGen

/-! ## Resolve-then-format safety (C1) -/

/-- The AO3-backend leaf variants (`TagPredicateAO3`, `NotPredicateAO3`,
`KVPredicateAO3`). -/
def isAO3Leaf : Pred → Bool
  | .tagAO3 _ => true
  | .notAO3 _ => true
  | .kvAO3 _ _ => true
  | _ => false

/-- `wfAO3 reg`: every narrower has at least one option and every option is
an AO3-variant leaf — the target-backend configuration contract. -/
def wfAO3 (reg : Registry) : Bool :=
  reg.all (fun p => p.2.all (fun n =>
    !n.predicate_opts.isEmpty && n.predicate_opts.all isAO3Leaf))

/-- The error kinds named by the spec (unknown category, exhausted category,
unsupported operator), as opposed to a formatting exception escaping the
`except ValueError` handler. -/
def IsDefinedRErr : RErr → Prop
  | .uncaught _ => False
  | _ => True

theorem ao3Leaf_format_ok {p : Pred} (h : isAO3Leaf p = true) :
    ∃ s, format p = .ok s := by
  cases p <;> simp [isAO3Leaf] at h <;> exact ⟨_, rfl⟩

theorem ao3Leaf_classOf {p : Pred} (h : isAO3Leaf p = true) :
    classOf p = .clsAO3 := by
  cases p <;> simp [isAO3Leaf] at h <;> rfl

theorem fmtList_ok {ps : List Pred} (h : ∀ p ∈ ps, ∃ s, format p = .ok s) :
    ∃ ss, fmtList ps = .ok ss := by
  induction ps with
  | nil => exact ⟨[], rfl⟩
  | cons p ps ih =>
    obtain ⟨s, hs⟩ := h p (List.mem_cons_self _ _)
    obtain ⟨ss, hss⟩ := ih (fun q hq => h q (List.mem_cons_of_mem _ hq))
    exact ⟨s :: ss, by simp [fmtList, hs, hss, Bind.bind, Except.bind]⟩

/-- A non-empty group of AO3-variant leaves always formats: a single child
formats as itself, two or more dispatch `TagPredicateAO3.formatBinOp`. -/
theorem ao3Group_format_ok {opts : List Pred} (dc : DC)
    (hne : opts ≠ []) (hall : ∀ p ∈ opts, isAO3Leaf p = true) :
    ∃ s, format (.multiOr opts dc) = .ok s := by
  match opts, hne with
  | [t], _ =>
    obtain ⟨s, hs⟩ := ao3Leaf_format_ok (hall t (List.mem_cons_self _ _))
    exact ⟨s, by simpa [format, fmtMulti] using hs⟩
  | t0 :: t1 :: rest, _ =>
    have h0 := ao3Leaf_classOf (hall t0 (List.mem_cons_self _ _))
    obtain ⟨s0, hs0⟩ := ao3Leaf_format_ok (hall t0 (List.mem_cons_self _ _))
    obtain ⟨ss, hss⟩ :=
      @fmtList_ok (t1 :: rest)
        (fun q hq => ao3Leaf_format_ok (hall q (List.mem_cons_of_mem _ hq)))
    refine ⟨"(" ++ joinStr " OR " (s0 :: ss) ++ ")", ?_⟩
    simp [format, fmtMulti, dispatchCls, h0, hs0, hss, Bind.bind, Except.bind]

/-- An item emitted by a string child of `_readLevel` in the well-formed AO3
setting: the narrower's `MultiOrPredicate` over a non-empty list of AO3
leaves. -/
def GoodItem (g : Pred) : Prop :=
  ∃ opts dc', g = .multiOr opts dc' ∧ opts ≠ [] ∧ ∀ p ∈ opts, isAO3Leaf p = true

theorem goodItem_format_ok {g : Pred} (h : GoodItem g) : ∃ s, format g = .ok s := by
  obtain ⟨opts, dc', rfl, hne, hall⟩ := h
  exact ao3Group_format_ok dc' hne hall

/-- A non-empty list of good items formats under either operator: with one
item the group formats like the item; with several, dispatch resolves
through the first group's first AO3 leaf to `TagPredicateAO3.formatBinOp`,
which formats every item recursively. -/
theorem goodItems_fmtMulti_ok {items : List Pred} (op : String)
    (hne : items ≠ []) (hall : ∀ g ∈ items, GoodItem g) :
    ∃ s, fmtMulti items op = .ok s := by
  match items, hne with
  | [g], _ =>
    obtain ⟨s, hs⟩ := goodItem_format_ok (hall g (List.mem_cons_self _ _))
    exact ⟨s, by simpa [fmtMulti] using hs⟩
  | g0 :: g1 :: rest, _ =>
    obtain ⟨opts, dc', hg0, hne0, hall0⟩ := hall g0 (List.mem_cons_self _ _)
    obtain ⟨s0, hs0⟩ := goodItem_format_ok (hall g0 (List.mem_cons_self _ _))
    obtain ⟨ss, hss⟩ :=
      @fmtList_ok (g1 :: rest)
        (fun q hq => goodItem_format_ok (hall q (List.mem_cons_of_mem _ hq)))
    match opts, hne0 with
    | f :: frest, _ =>
      have hfl : isAO3Leaf f = true := hall0 f (List.mem_cons_self _ _)
      subst hg0
      refine ⟨"(" ++ joinStr (" " ++ op ++ " ") (s0 :: ss) ++ ")", ?_⟩
      cases f <;> simp [isAO3Leaf] at hfl <;>
        simp [fmtMulti, dispatchCls, classOf, expandOf, hs0, hss, Bind.bind, Except.bind]

end SearchGen

namespace SearchGen

/-- Registry for the exhaustion scenario: one category with a single
narrower. -/
def regThemeOne : Registry := [("theme", [⟨0, "angst", [.tagAO3 "angst"]⟩])]

/-- C4: exhaustion.  Whenever a pattern leaf names a category all of whose
narrowers are already in the selection state (`set(category) - selected`
empty), `random.choice([])` raises — the spec's `ExhaustedCategoryError`.
In particular a category with exactly one narrower, referenced twice by the
pattern, exhausts on the second reference, whatever the random oracle
supplies. -/
theorem claim_C4_exhaustion :
    (∀ (reg : Registry) (dc : DC) (c : String) (st : RState) (cat : List Nrw),
       lookupCat reg c = some cat →
       cat.filter (fun n => !(st.selected.contains n.id)) = [] →
       readChild reg dc (.leaf c) st = .error (.exhaustedCategory c)) ∧
    (∀ rand : List Nat,
       resolve regThemeOne .dao3 "AND" [.leaf "theme", .leaf "theme"] rand
         = .error (.exhaustedCategory "theme")) := by
  constructor
  · intro reg dc c st cat hl hf
    unfold readChild
    rw [hl]
    dsimp only
    rw [hf]
  · intro rand
    rcases rand with _ | ⟨k, r⟩
    · rfl
    · simp [resolve, readLevel, readChildren, readChild, lookupCat, nextRand,
            regThemeOne, Nat.mod_one, format, fmtMulti, combineLevel]

/-- Witness for C4: after the single narrower of `regThemeOne` is selected,
a further leaf naming `"theme"` hits the exhausted case. -/
theorem claim_C4_exhaustion_witness :
    readChild regThemeOne .dao3 (.leaf "theme")
      { selected := [0], rand := [], visits := [0], picks := [0] }
      = .error (.exhaustedCategory "theme") :=
  claim_C4_exhaustion.1 regThemeOne .dao3 "theme"
    { selected := [0], rand := [], visits := [0], picks := [0] }
    [⟨0, "angst", [.tagAO3 "angst"]⟩] rfl rfl

/-- Registry with a narrower whose options list is empty. -/
def regEmptyOpts : Registry := [("c", [⟨0, "n", []⟩])]

/-- C10: at any string child, in any state, a sampled
narrower whose options list is empty is skipped silently — no child is
emitted, no error is raised, the selection state is unchanged (only the
random draw is consumed and the ghost visit log extended), and the narrower
is still a member of the category's available set computed from that
unchanged selection state, so a later leaf of the same category can sample
it again.  The instance part shows the re-sampling end to end: both leaves
of `AND("c","c")` sample the same empty-options narrower (visit log
`[0, 0]`) and the resolution still succeeds with an empty root group. -/
theorem claim_C10_empty_options_skipped :
    (∀ (reg : Registry) (dc : DC) (c : String) (st : RState)
       (cat : List Nrw) (n0 : Nrw) (tail : List Nrw) (nrw : Nrw),
       lookupCat reg c = some cat →
       cat.filter (fun n => !(st.selected.contains n.id)) = n0 :: tail →
       nrw = (n0 :: tail).getD ((nextRand st.rand).1 % (n0 :: tail).length) n0 →
       nrw.predicate_opts = [] →
       readChild reg dc (.leaf c) st
         = .ok ([], { selected := st.selected, rand := (nextRand st.rand).2,
                      visits := st.visits ++ [nrw.id], picks := st.picks }) ∧
       nrw ∈ cat.filter (fun n => !(st.selected.contains n.id))) ∧
    (∀ rand : List Nat,
       resolve regEmptyOpts .dtag "AND" [.leaf "c", .leaf "c"] rand
         = .ok (.multiAnd [] .dtag,
                { selected := [], rand := rand.drop 2, visits := [0, 0], picks := [] })) := by
  constructor
  · intro reg dc c st cat n0 tail nrw hl hav hnrw hopts
    constructor
    · unfold readChild
      rw [hl]
      dsimp only
      rw [hav]
      rcases hnr : nextRand st.rand with ⟨k, r⟩
      rw [hnr] at hnrw
      dsimp only at hnrw ⊢
      rw [← hnrw, hopts]
      simp
    · rw [hav, hnrw]
      exact getD_mod_mem _ _ n0 (by simp)
  · intro rand
    rcases rand with _ | ⟨k₁, _ | ⟨k₂, r⟩⟩ <;>
      simp [resolve, readLevel, readChildren, readChild, lookupCat, nextRand,
            regEmptyOpts, Nat.mod_one, combineLevel]

/-- C10 witness: the general part at the concrete empty-options registry and
initial state. -/
theorem claim_C10_empty_options_witness :
    readChild regEmptyOpts .dtag (.leaf "c")
      { selected := [], rand := [], visits := [], picks := [] }
      = .ok ([], { selected := [], rand := [], visits := [0], picks := [] }) ∧
    (⟨0, "n", []⟩ : Nrw) ∈
      ([⟨0, "n", []⟩] : List Nrw).filter (fun n => !(([] : List Nat).contains n.id)) := by
  have h := claim_C10_empty_options_skipped.1 regEmptyOpts .dtag "c"
    { selected := [], rand := [], visits := [], picks := [] }
    [⟨0, "n", []⟩] ⟨0, "n", []⟩ [] ⟨0, "n", []⟩ rfl rfl rfl rfl
  exact ⟨h.1, h.2⟩

/-- Registry for the fallback scenario: one narrower with two plain-tag
options, so that `MultiOrPredicate(opts).format()` raises
`ValueError("OR")` under the generic backend. -/
def regFallback : Registry := [("c", [⟨0, "n", [.tag "a", .tag "b"]⟩])]

/-- C3: fallback policy.  At any string child of any
`_readLevel` node, in any selection state: whenever the verification
`format()` of the sampled narrower's `MultiOrPredicate` raises `ValueError`
(the backend/variant mismatch), the child emitted is the single option
selected from `predicate_opts` by the next random draw — an element of the
options — the narrower is still marked selected, and no error reaches the
caller.  The instance part runs the whole policy end to end: resolving
`OR("c")` over a two-plain-tag narrower under the generic backend succeeds
with one oracle-chosen option, while the group itself fails to format. -/
theorem claim_C3_fallback :
    (∀ (reg : Registry) (dc : DC) (c : String) (st : RState)
       (cat : List Nrw) (n0 : Nrw) (tail : List Nrw) (nrw : Nrw) (op' : String),
       lookupCat reg c = some cat →
       cat.filter (fun n => !(st.selected.contains n.id)) = n0 :: tail →
       nrw = (n0 :: tail).getD ((nextRand st.rand).1 % (n0 :: tail).length) n0 →
       format (.multiOr nrw.predicate_opts dc) = .error (.valueError op') →
       readChild reg dc (.leaf c) st
         = .ok ([nrw.predicate_opts.getD
                   ((nextRand (nextRand st.rand).2).1 % nrw.predicate_opts.length)
                   (.base "")],
                { selected := st.selected ++ [nrw.id],
                  rand := (nextRand (nextRand st.rand).2).2,
                  visits := st.visits ++ [nrw.id],
                  picks := st.picks ++ [nrw.id] }) ∧
       nrw.predicate_opts.getD
           ((nextRand (nextRand st.rand).2).1 % nrw.predicate_opts.length) (.base "")
         ∈ nrw.predicate_opts) ∧
    (∀ (k₁ k₂ : Nat) (r : List Nat),
       resolve regFallback .dtag "OR" [.leaf "c"] (k₁ :: k₂ :: r)
         = .ok (.multiOr [if k₂ % 2 = 0 then .tag "a" else .tag "b"] .dtag,
                { selected := [0], rand := r, visits := [0], picks := [0] }) ∧
       format (.multiOr [.tag "a", .tag "b"] .dtag) = .error (.valueError "OR")) := by
  constructor
  · intro reg dc c st cat n0 tail nrw op' hl hav hnrw hfmt
    have hne : nrw.predicate_opts ≠ [] := by
      intro hnil
      rw [hnil] at hfmt
      exact absurd hfmt (by simp [format, fmtMulti])
    have hlen : nrw.predicate_opts.length > 0 := List.length_pos.mpr hne
    refine ⟨?_, getD_mod_mem _ _ _ hne⟩
    unfold readChild
    rw [hl]
    dsimp only
    rw [hav]
    rcases hnr : nextRand st.rand with ⟨k, r⟩
    rw [hnr] at hnrw
    dsimp only at hnrw ⊢
    rw [← hnrw, if_pos hlen, hfmt]
  · intro k₁ k₂ r
    refine ⟨?_, rfl⟩
    rcases Nat.mod_two_eq_zero_or_one k₂ with h | h <;>
      simp [resolve, readLevel, readChildren, readChild, lookupCat, nextRand,
            regFallback, Nat.mod_one, format, fmtMulti, dispatchCls, classOf,
            combineLevel, h]

/-- C3 witness: the general part at a concrete registry and the initial
state — the group of plain tags fails to format, and the fallback emits its
first option. -/
theorem claim_C3_fallback_witness :
    readChild regFallback .dtag (.leaf "c")
      { selected := [], rand := [], visits := [], picks := [] }
      = .ok ([.tag "a"], { selected := [0], rand := [], visits := [0], picks := [0] }) ∧
    (Pred.tag "a") ∈ [Pred.tag "a", Pred.tag "b"] := by
  have h := claim_C3_fallback.1 regFallback .dtag "c"
    { selected := [], rand := [], visits := [], picks := [] }
    [⟨0, "n", [.tag "a", .tag "b"]⟩] ⟨0, "n", [.tag "a", .tag "b"]⟩ []
    ⟨0, "n", [.tag "a", .tag "b"]⟩ "OR" rfl rfl rfl rfl
  exact ⟨h.1, h.2⟩

end SearchGen

namespace SearchGen

/-- In the well-formed AO3 setting, a string child of `_readLevel` either
fails with a defined error (unknown or exhausted category) or emits exactly
one item: the narrower's non-empty AO3-leaf `MultiOrPredicate`.  The
`ValueError` fallback and the uncaught-exception branch are unreachable
because such a group always formats. -/
theorem readChild_leaf_good {reg : Registry} {dc : DC}
    (hwf : wfAO3 reg = true) (c : String) (st : RState) :
    (∃ e, readChild reg dc (.leaf c) st = .error e ∧ IsDefinedRErr e) ∨
    (∃ g st', readChild reg dc (.leaf c) st = .ok ([g], st') ∧ GoodItem g) := by
  unfold readChild
  cases hl : lookupCat reg c with
  | none => exact Or.inl ⟨.unknownCategory c, rfl, trivial⟩
  | some cat =>
    dsimp only
    cases havail : cat.filter (fun n => !(st.selected.contains n.id)) with
    | nil => exact Or.inl ⟨.exhaustedCategory c, rfl, trivial⟩
    | cons n0 tail =>
      rcases hnr : nextRand st.rand with ⟨k, r⟩
      dsimp only
      set nrw := (n0 :: tail).getD (k % (n0 :: tail).length) n0 with hnrw
      have hmem : nrw ∈ n0 :: tail := getD_mod_mem _ _ n0 (by simp)
      have hcat : nrw ∈ cat := by
        have : nrw ∈ cat.filter (fun n => !(st.selected.contains n.id)) := by
          rw [havail]; exact hmem
        exact (List.mem_filter.mp this).1
      have hn := List.all_eq_true.mp (List.all_eq_true.mp hwf _ (lookupCat_mem hl)) _ hcat
      rw [Bool.and_eq_true] at hn
      have hne : nrw.predicate_opts ≠ [] := by
        have := hn.1
        simp only [Bool.not_eq_true'] at this
        simpa [List.isEmpty_iff] using this
      have hall : ∀ p ∈ nrw.predicate_opts, isAO3Leaf p = true :=
        List.all_eq_true.mp hn.2
      have hopts : nrw.predicate_opts.length > 0 := by
        simpa [List.length_pos] using hne
      obtain ⟨s, hs⟩ := ao3Group_format_ok dc hne hall
      rw [if_pos hopts, hs]
      exact Or.inr ⟨_, _, rfl, nrw.predicate_opts, dc, rfl, hne, hall⟩

/-- Over a list of category leaves, `_readLevel`'s loop either fails with a
defined error or collects one good item per leaf. -/
theorem readChildren_leaves_good {reg : Registry} {dc : DC}
    (hwf : wfAO3 reg = true) :
    ∀ (l : List Pattern), (∀ pc ∈ l, ∃ c, pc = Pattern.leaf c) → ∀ (st : RState),
      (∃ e, readChildren reg dc l st = .error e ∧ IsDefinedRErr e) ∨
      (∃ items st', readChildren reg dc l st = .ok (items, st') ∧
        items.length = l.length ∧ ∀ g ∈ items, GoodItem g) := by
  intro l
  induction l with
  | nil =>
    intro _ st
    exact Or.inr ⟨[], st, rfl, rfl, by simp⟩
  | cons hd tl ih =>
    intro hleaves st
    obtain ⟨c, rfl⟩ := hleaves hd (List.mem_cons_self _ _)
    rcases readChild_leaf_good hwf c st with ⟨e, he, hdef⟩ | ⟨g, st₁, hok, hgood⟩
    · refine Or.inl ⟨e, ?_, hdef⟩
      unfold readChildren
      rw [he]
    · rcases ih (fun q hq => hleaves q (List.mem_cons_of_mem _ hq)) st₁ with
        ⟨e, he, hdef⟩ | ⟨items₂, st₂, hok₂, hlen, hgoods⟩
      · refine Or.inl ⟨e, ?_, hdef⟩
        unfold readChildren
        rw [hok]
        dsimp only
        rw [he]
      · refine Or.inr ⟨g :: items₂, st₂, ?_, by simp [hlen], ?_⟩
        · unfold readChildren
          rw [hok]
          dsimp only
          rw [hok₂]
          rfl
        · intro q hq
          rcases List.mem_cons.mp hq with rfl | hq
          · exact hgood
          · exact hgoods q hq

/-- C1 counterexample registry: two categories whose narrowers hold a single
plain tag each (the generic backend's leaf variant). -/
def regTwoPlain : Registry :=
  [("c1", [⟨0, "n1", [.tag "a"]⟩]), ("c2", [⟨1, "n2", [.tag "b"]⟩])]

/-- C1 counterexample: `resolve` returns normally (no error is raised), yet
calling `format()` on the returned composite raises `ValueError("OR")` — a
formatting failure that is not one of the defined error kinds.  The root
composite is never format-verified by `_readLevel`: only the per-narrower
groups are, so an OR root over two plain-tag groups fails afterwards, at
line 339's `.format()` call. -/
theorem claim_C1_counterexample :
    resolve regTwoPlain .dtag "OR" [.leaf "c1", .leaf "c2"] []
      = .ok (.multiOr [.multiOr [.tag "a"] .dtag, .multiOr [.tag "b"] .dtag] .dtag,
             { selected := [0, 1], rand := [], visits := [0, 1], picks := [0, 1] }) ∧
    format (.multiOr [.multiOr [.tag "a"] .dtag, .multiOr [.tag "b"] .dtag] .dtag)
      = .error (.valueError "OR") :=
  ⟨rfl, rfl⟩

/-- C1 amended: in general the composite returned by `resolve` may fail to
format (see the counterexample).  What does hold: for a flat pattern node
(a non-empty list of category leaves) over a registry whose narrowers all
carry at least one AO3-variant leaf option, `resolve` either raises one of
the defined error kinds or returns a composite whose `format()` succeeds. -/
theorem claim_C1_resolve_then_format
    (reg : Registry) (dc : DC) (op : String) (children : List Pattern)
    (rand : List Nat)
    (hne : children ≠ [])
    (hleaves : ∀ pc ∈ children, ∃ c, pc = Pattern.leaf c)
    (hwf : wfAO3 reg = true) :
    (∃ e, resolve reg dc op children rand = .error e ∧ IsDefinedRErr e) ∨
    (∃ p st' s, resolve reg dc op children rand = .ok (p, st') ∧ format p = .ok s) := by
  unfold resolve readLevel
  rcases readChildren_leaves_good hwf children hleaves
      { selected := [], rand := rand, visits := [], picks := [] } with
    ⟨e, he, hdef⟩ | ⟨items, st', hok, hlen, hgoods⟩
  · rw [he]
    exact Or.inl ⟨e, rfl, hdef⟩
  · rw [hok]
    dsimp only
    have hine : items ≠ [] := by
      intro hnil
      exact hne (List.length_eq_zero.mp (by simpa [hnil] using hlen.symm))
    by_cases hand : op = "AND"
    · obtain ⟨s, hs⟩ := goodItems_fmtMulti_ok "AND" hine hgoods
      subst hand
      rw [combineLevel, if_pos rfl]
      exact Or.inr ⟨_, st', s, rfl, by simpa [format] using hs⟩
    · by_cases hor : op = "OR"
      · obtain ⟨s, hs⟩ := goodItems_fmtMulti_ok "OR" hine hgoods
        subst hor
        rw [combineLevel, if_neg (by decide), if_pos rfl]
        exact Or.inr ⟨_, st', s, rfl, by simpa [format] using hs⟩
      · rw [combineLevel, if_neg hand, if_neg hor]
        exact Or.inl ⟨.unsupportedOperator op, rfl, trivial⟩

/-- Witness for C1 at a concrete input: resolving `AND("c1","c2")` over the
AO3 registry, where the conclusion's right disjunct holds with a formatted
string. -/
theorem claim_C1_witness :
    ([Pattern.leaf "c1", Pattern.leaf "c2"] ≠ ([] : List Pattern)) ∧
    ((∃ e, resolve regAO3 .dao3 "AND" [.leaf "c1", .leaf "c2"] [] = .error e ∧ IsDefinedRErr e) ∨
     (∃ p st' s, resolve regAO3 .dao3 "AND" [.leaf "c1", .leaf "c2"] [] = .ok (p, st') ∧
        format p = .ok s)) :=
  ⟨by simp,
   claim_C1_resolve_then_format regAO3 .dao3 "AND" [.leaf "c1", .leaf "c2"] []
     (by simp)
     (by intro pc hpc
         rcases List.mem_cons.mp hpc with rfl | hpc
         · exact ⟨"c1", rfl⟩
         · rcases List.mem_cons.mp hpc with rfl | hpc
           · exact ⟨"c2", rfl⟩
           · cases hpc)
     (by decide)⟩

end SearchGen
